import Mathlib

/-!
# Shield supervisor: job catalog, schedule check and dispatch loop

A shallow embedding of `supervisor/supervisor.go`.  The Go code talks to a
database, a clock, a schedule grammar and a worker channel.  These are kept
abstract: every call into a collaborator takes the current `world` and hands
back its answer together with the next `world`, and every externally visible
action (database call, channel send, log line) is appended to a `trace` at the
place where the source performs it.
-/

namespace Shield

/-- Textual form of a `uuid.UUID` value. -/
abbrev UUID := String

/-- An instant (`time.Time`), as a number of clock units. -/
abbrev Time := Int

/-- A Go `error` value, by its message. -/
abbrev Err := String

/-- The adapter executable and its configuration payload. -/
structure PluginConfig where
  Plugin : String
  Endpoint : String
deriving DecidableEq, Repr

/-- Handle of a parsed schedule (`*timespec.Spec`); what a handle means is up to
the schedule grammar collaborator. -/
structure Spec where
  handle : Nat
deriving DecidableEq, Repr

/-- The fields of `Job` that supervisor.go reads and writes. -/
structure Job where
  UUID : UUID
  Target : PluginConfig
  Store : PluginConfig
  Spec : Spec
  Paused : Bool
  NextRun : Time
deriving DecidableEq, Repr

/-- The operation a task performs. -/
inductive Operation where
  | BACKUP
  | RESTORE
deriving DecidableEq, Repr

/-- One execution instance queued for a worker. -/
structure Task where
  UUID : UUID
  Op : Operation
  Store : PluginConfig
  Target : PluginConfig
deriving DecidableEq, Repr

/-- Modelled from the spec: the operation codes of a worker update, declared
outside supervisor.go.  The spec names OUTPUT, STOPPED and RESTORE_KEY; every
other code a worker could put on the wire is `unknown`. -/
inductive UpdateOp where
  | STOPPED
  | OUTPUT
  | RESTORE_KEY
  | unknown (code : Nat)
deriving DecidableEq, Repr

/-- A message from a worker to the supervisor. -/
structure WorkerUpdate where
  Task : UUID
  Op : UpdateOp
  StoppedAt : Time
  Output : String
deriving DecidableEq, Repr

/-- One failed catalog row. -/
structure JobRepresentation where
  UUID : UUID
  Tspec : String
  Error : Err
deriving DecidableEq, Repr

/-- The aggregate error of a catalog load. -/
structure JobFailedError where
  FailedJobs : List JobRepresentation
deriving DecidableEq, Repr

/-- The text of the aggregate error. -/
def JobFailedError.Error (e : JobFailedError) : String :=
  "the following job(s) failed: " ++ ", ".intercalate (e.FailedJobs.map (fun j => j.UUID))

/-- The two kinds of error value `GetAllJobs` and `Resync` return: the error of the
query itself, or a `JobFailedError`. -/
inductive Failure where
  | general (cause : Err)
  | jobFailed (e : JobFailedError)
deriving DecidableEq, Repr

/-- What `result.Scan` leaves behind for one row of the jobs query: the values of
the destination variables and the error `Scan` returned. -/
structure Row where
  id : String
  paused : Bool
  targetPlugin : String
  targetEndpoint : String
  storePlugin : String
  storeEndpoint : String
  tspec : String
  expiry : Int
  scanErr : Option Err
deriving DecidableEq, Repr

/-- The collaborators of the supervisor.  `ω` is the state of everything outside
the supervisor (database contents, wall clock). -/
structure Collab (ω : Type) where
  Query : ω → Except Err (List Row) × ω
  CreateTask : ω → String → String → String → UUID → (UUID × Option Err) × ω
  StartTask : ω → UUID → Time → ω
  CompleteTask : ω → UUID → Time → Option Err × ω
  UpdateTaskLog : ω → UUID → String → Option Err × ω
  CreateTaskArchive : ω → UUID → String → Time → Option Err × ω
  now : ω → Time × ω
  uuidParse : String → UUID
  timespecParse : String → Spec × Option Err
  next : Spec → Time → Except Err Time

/-- Actions of the supervisor, in the order it performs them: the calls on
`s.Database`, the send on the worker channel, the append to the run queue, the call
of `Job.Reschedule`, and the log lines (by their format string). -/
inductive Effect where
  | Query
  | CreateTask (owner : String) (op : String) (args : String) (job : UUID)
  | StartTask (id : UUID) (at_ : Time)
  | CompleteTask (id : UUID) (at_ : Time)
  | UpdateTaskLog (id : UUID) (output : String)
  | CreateTaskArchive (id : UUID) (key : String) (at_ : Time)
  | Send (t : Task)
  | Enqueue (t : Task)
  | Reschedule (job : UUID)
  | Printf (format : String)
deriving DecidableEq, Repr

/-- The supervisor: run queue, job catalog, the outside world and the trace of
what has been done so far. -/
structure Supervisor (ω : Type) where
  runq : List Task
  jobq : List Job
  world : ω
  trace : List Effect

variable {ω : Type}

/-- Appends effects to the trace. -/
def Supervisor.emit (s : Supervisor ω) (es : List Effect) : Supervisor ω :=
  { s with trace := s.trace ++ es }

/-- Body of the row loop of `GetAllJobs` (lines 47-63): `acc` holds `l` and `e`. -/
def GetAllJobs.row (c : Collab ω) (acc : List Job × JobFailedError) (r : Row) :
    List Job × JobFailedError :=
  let id := c.uuidParse r.id
  let e1 : JobFailedError :=
    match r.scanErr with
    | some err => { FailedJobs := acc.2.FailedJobs ++ [⟨id, r.tspec, err⟩] }
    | none => acc.2
  let p := c.timespecParse r.tspec
  let e2 : JobFailedError :=
    match p.2 with
    | some err => { FailedJobs := e1.FailedJobs ++ [⟨id, r.tspec, err⟩] }
    | none => e1
  let j : Job :=
    { UUID := id
      Target := ⟨r.targetPlugin, r.targetEndpoint⟩
      Store := ⟨r.storePlugin, r.storeEndpoint⟩
      Spec := p.1
      Paused := r.paused
      NextRun := 0 }
  (acc.1 ++ [j], e2)

/-- The row loop of `GetAllJobs`, started from an empty `l` and an empty `e`. -/
def GetAllJobs.rows (c : Collab ω) (rows : List Row) : List Job × JobFailedError :=
  rows.foldl (GetAllJobs.row c) ([], ⟨[]⟩)

/-- `Supervisor.GetAllJobs`. -/
def GetAllJobs (c : Collab ω) (s : Supervisor ω) :
    (List Job × Option Failure) × Supervisor ω :=
  let q := c.Query s.world
  let s1 : Supervisor ω := { s with world := q.2, trace := s.trace ++ [Effect.Query] }
  match q.1 with
  | .error err => (([], some (Failure.general err)), s1)
  | .ok rows =>
    let r := GetAllJobs.rows c rows
    if r.2.FailedJobs.length = 0 then ((r.1, none), s1)
    else ((r.1, some (Failure.jobFailed r.2)), s1)

/-- Modelled from the spec: `Job.Reschedule` (job.go is not among the sources).
It asks the schedule grammar for the next occurrence after now and assigns it to
`NextRun`; on failure `NextRun` is left unchanged and the error is returned. -/
def Job.Reschedule (c : Collab ω) (w : ω) (j : Job) : (Job × Option Err) × ω :=
  let t := c.now w
  match c.next j.Spec t.1 with
  | .ok n => (({ j with NextRun := n }, none), t.2)
  | .error e => ((j, some e), t.2)

/-- Modelled from the spec: `Job.Runnable` (job.go is not among the sources).
`NextRun` is at or before the current instant and the job is not paused. -/
def Job.Runnable (c : Collab ω) (w : ω) (j : Job) : Bool × ω :=
  let t := c.now w
  (!j.Paused && decide (j.NextRun ≤ t.1), t.2)

/-- Modelled from the spec: `Job.Task` (job.go is not among the sources).
A BACKUP task carrying the Target and Store of the job; its UUID is not yet
assigned. -/
def Job.Task (j : Job) : Task :=
  { UUID := "", Op := Operation.BACKUP, Store := j.Store, Target := j.Target }

/-- The reschedule loop of `Resync` (lines 124-133): returns the jobs as the loop
leaves them. -/
def Resync.loop (c : Collab ω) : Supervisor ω → List Job → List Job × Supervisor ω
  | s, [] => ([], s)
  | s, job :: rest =>
    let r := Job.Reschedule c s.world job
    let line : Effect :=
      match r.1.2 with
      | some _ => Effect.Printf "error encountered while determining next run of %s (%s): %s\n"
      | none => Effect.Printf "initial run of %s (%s) is at %s\n"
    let s1 : Supervisor ω :=
      { s with world := r.2, trace := s.trace ++ [Effect.Reschedule job.UUID, line] }
    let k := Resync.loop c s1 rest
    (r.1.1 :: k.1, k.2)

/-- `Supervisor.Resync`: the returned error and the supervisor afterwards. -/
def Resync (c : Collab ω) (s : Supervisor ω) : Option Failure × Supervisor ω :=
  let g := GetAllJobs c s
  match g.1.2 with
  | some err => (some err, g.2)
  | none =>
    let k := Resync.loop c g.2 g.1.1
    (none, { k.2 with jobq := k.1 })

/-- Body of the loop of `CheckSchedule` (lines 141-168) for one job: the job as the
body leaves it, and the supervisor afterwards. -/
def CheckSchedule.body (c : Collab ω) (s : Supervisor ω) (job : Job) : Job × Supervisor ω :=
  let r := Job.Runnable c s.world job
  let s1 : Supervisor ω := { s with world := r.2 }
  if !r.1 then (job, s1)
  else
    let s2 := s1.emit [Effect.Printf "scheduling execution of job %s\n"]
    let task := job.Task
    let ct := c.CreateTask s2.world "system" "backup" "ARGS" job.UUID
    let s3 : Supervisor ω :=
      { s2 with world := ct.2
                trace := s2.trace ++ [Effect.CreateTask "system" "backup" "ARGS" job.UUID] }
    match ct.1.2 with
    | some _ =>
      (job, s3.emit [Effect.Printf "job -> task conversion / database update failed: %s\n"])
    | none =>
      let task1 : Task := { task with UUID := ct.1.1 }
      let s4 : Supervisor ω :=
        { s3 with runq := s3.runq ++ [task1], trace := s3.trace ++ [Effect.Enqueue task1] }
      let rs := Job.Reschedule c s4.world job
      let line : Effect :=
        match rs.1.2 with
        | some _ => Effect.Printf "error encountered while determining next run of %s (%s): %s\n"
        | none => Effect.Printf "next run of %s (%s) is at %s\n"
      (rs.1.1,
        { s4 with world := rs.2, trace := s4.trace ++ [Effect.Reschedule job.UUID, line] })

/-- The loop of `CheckSchedule` over the catalog. -/
def CheckSchedule.loop (c : Collab ω) : Supervisor ω → List Job → List Job × Supervisor ω
  | s, [] => ([], s)
  | s, job :: rest =>
    let b := CheckSchedule.body c s job
    let k := CheckSchedule.loop c b.2 rest
    (b.1 :: k.1, k.2)

/-- `Supervisor.CheckSchedule`. -/
def CheckSchedule (c : Collab ω) (s : Supervisor ω) : Supervisor ω :=
  let k := CheckSchedule.loop c s s.jobq
  { k.2 with jobq := k.1 }

/-- The `updates` branch of `Run` (lines 184-205). -/
def Run.update (c : Collab ω) (s : Supervisor ω) (u : WorkerUpdate) : Supervisor ω :=
  let failed : Effect := Effect.Printf "  %s: !! failed to update database - %s\n"
  if u.Op = UpdateOp.STOPPED then
    let s1 := s.emit [Effect.Printf "  %s: job stopped at %s\n"]
    let r := c.CompleteTask s1.world u.Task u.StoppedAt
    let s2 : Supervisor ω :=
      { s1 with world := r.2, trace := s1.trace ++ [Effect.CompleteTask u.Task u.StoppedAt] }
    match r.1 with
    | some _ => s2.emit [failed]
    | none => s2
  else if u.Op = UpdateOp.OUTPUT then
    let s1 := s.emit [Effect.Printf "  %s> %s\n"]
    let r := c.UpdateTaskLog s1.world u.Task u.Output
    let s2 : Supervisor ω :=
      { s1 with world := r.2, trace := s1.trace ++ [Effect.UpdateTaskLog u.Task u.Output] }
    match r.1 with
    | some _ => s2.emit [failed]
    | none => s2
  else if u.Op = UpdateOp.RESTORE_KEY then
    let s1 := s.emit [Effect.Printf "  %s: restore key is %s\n"]
    let t := c.now s1.world
    let r := c.CreateTaskArchive t.2 u.Task u.Output t.1
    let s2 : Supervisor ω :=
      { s1 with world := r.2
                trace := s1.trace ++ [Effect.CreateTaskArchive u.Task u.Output t.1] }
    match r.1 with
    | some _ => s2.emit [failed]
    | none => s2
  else
    s.emit [Effect.Printf "  %s: !! unrecognized op type\n"]

/-- The `default` branch of `Run` (lines 207-216).  `ready` says whether a worker is
waiting to receive on the worker channel when the inner `select` is evaluated. -/
def Run.handoff (c : Collab ω) (s : Supervisor ω) (ready : Bool) : Supervisor ω :=
  match s.runq with
  | [] => s
  | head :: rest =>
    if ready then
      let t := c.now s.world
      let w := c.StartTask t.2 head.UUID t.1
      { s with world := w
               runq := rest
               trace := s.trace ++ [Effect.Send head, Effect.StartTask head.UUID t.1,
                 Effect.Printf "sent a task to a worker\n"] }
    else s

/-- What the outer `select` of `Run` picked in one iteration of the loop. -/
inductive Event where
  | resync
  | tick
  | update (u : WorkerUpdate)
  | idle (ready : Bool)
deriving DecidableEq, Repr

/-- One iteration of the loop of `Run`. -/
def Run.step (c : Collab ω) (s : Supervisor ω) : Event → Supervisor ω
  | Event.resync =>
    let r := Resync c s
    match r.1 with
    | some _ => r.2.emit [Effect.Printf "resync error: %s\n"]
    | none => r.2
  | Event.tick => CheckSchedule c s
  | Event.update u => Run.update c s u
  | Event.idle ready => Run.handoff c s ready

/-- The loop of `Run` over a sequence of iterations. -/
def Run.steps (c : Collab ω) (s : Supervisor ω) (es : List Event) : Supervisor ω :=
  es.foldl (Run.step c) s

/-! ## Reading a trace -/

/-- The tasks sent on the worker channel, in order. -/
def sent : List Effect → List Task
  | [] => []
  | Effect.Send t :: rest => t :: sent rest
  | _ :: rest => sent rest

/-- The tasks appended to the run queue, in order. -/
def enqueued : List Effect → List Task
  | [] => []
  | Effect.Enqueue t :: rest => t :: enqueued rest
  | _ :: rest => enqueued rest

/-- Whether an effect is a call on `s.Database`. -/
def Effect.isDatabaseCall : Effect → Bool
  | Effect.Query => true
  | Effect.CreateTask _ _ _ _ => true
  | Effect.StartTask _ _ => true
  | Effect.CompleteTask _ _ => true
  | Effect.UpdateTaskLog _ _ => true
  | Effect.CreateTaskArchive _ _ _ => true
  | _ => false

/-- The database calls of a trace, in order. -/
def databaseCalls (tr : List Effect) : List Effect :=
  tr.filter Effect.isDatabaseCall

/-- Whether an effect is an invocation of `Job.Reschedule`. -/
def Effect.isReschedule : Effect → Bool
  | Effect.Reschedule _ => true
  | _ => false

/-- The effects of one iteration of the loop of `Run`: what the iteration added to
the trace. -/
def Run.effects (c : Collab ω) (s : Supervisor ω) (e : Event) : List Effect :=
  (Run.step c s e).trace.drop s.trace.length

/-- In the trace `tr` both effects occur and the first occurrence of `a` comes
before the first occurrence of `b`. -/
def occursBefore (a b : Effect) (tr : List Effect) : Prop :=
  a ∈ tr ∧ b ∈ tr ∧ tr.indexOf a < tr.indexOf b

instance occursBefore.decidable (a b : Effect) (tr : List Effect) :
    Decidable (occursBefore a b tr) := by
  unfold occursBefore; infer_instance

/-! ## Vocabulary of the claims

Rows that failed, the Job a row stands for, and what a pass of `CheckSchedule` owes
each job of the catalog. -/

/-- Whether a row failed to load: `Scan` returned an error or the schedule text
did not parse. -/
def Row.failed (c : Collab ω) (r : Row) : Bool :=
  r.scanErr.isSome || (c.timespecParse r.tspec).2.isSome

/-- The entries the row loop adds to `e.FailedJobs` for one row: one for a failed
`Scan`, then one for a failed schedule parse. -/
def Row.failures (c : Collab ω) (r : Row) : List JobRepresentation :=
  (match r.scanErr with
    | some err => [⟨c.uuidParse r.id, r.tspec, err⟩]
    | none => []) ++
  (match (c.timespecParse r.tspec).2 with
    | some err => [⟨c.uuidParse r.id, r.tspec, err⟩]
    | none => [])

/-- The Job that the row loop builds from a row. -/
def Row.job (c : Collab ω) (r : Row) : Job :=
  { UUID := c.uuidParse r.id
    Target := ⟨r.targetPlugin, r.targetEndpoint⟩
    Store := ⟨r.storePlugin, r.storeEndpoint⟩
    Spec := (c.timespecParse r.tspec).1
    Paused := r.paused
    NextRun := 0 }

/-- A job with its next-run instant blanked: everything `Reschedule` leaves alone. -/
def Job.definition (j : Job) : Job :=
  { j with NextRun := 0 }

/-- The catalog a resync owes, in the words of the spec: each loaded job after its
initial `Reschedule`, in load order, the clock being read once per job starting
from the world `w` the query left behind. -/
def Resync.rescheduled (c : Collab ω) : ω → List Job → List Job
  | _, [] => []
  | w, job :: rest =>
    (Job.Reschedule c w job).1.1 :: Resync.rescheduled c (Job.Reschedule c w job).2 rest

/-- The visits of a pass of `CheckSchedule`: each job of the catalog, in catalog
order, paired with the world in which its turn comes. -/
def CheckSchedule.visits (c : Collab ω) : Supervisor ω → List Job → List (ω × Job)
  | _, [] => []
  | s, job :: rest => (s.world, job) :: CheckSchedule.visits c (CheckSchedule.body c s job).2 rest

/-- Whether the job of a visit is Runnable when its turn comes. -/
def CheckSchedule.due (c : Collab ω) (v : ω × Job) : Bool :=
  (Job.Runnable c v.1 v.2).1

/-- The answer of `CreateTask` for the job of a visit, asked right after the job
was found Runnable. -/
def CheckSchedule.created (c : Collab ω) (v : ω × Job) : (UUID × Option Err) × ω :=
  c.CreateTask (Job.Runnable c v.1 v.2).2 "system" "backup" "ARGS" v.2.UUID

/-- The Task a visit adds to the run queue, in the words of the spec: a job that is
Runnable and whose task record was created yields its BACKUP Task under the UUID
that `CreateTask` returned; any other job yields nothing. -/
def CheckSchedule.dispatched (c : Collab ω) (v : ω × Job) : Option Task :=
  if CheckSchedule.due c v = true ∧ (CheckSchedule.created c v).1.2 = none then
    some { v.2.Task with UUID := (CheckSchedule.created c v).1.1 }
  else none

/-- The job after its visit, in the words of the spec: a dispatched job is
rescheduled, any other job is left as it was. -/
def CheckSchedule.leaves (c : Collab ω) (v : ω × Job) : Job :=
  if CheckSchedule.due c v = true ∧ (CheckSchedule.created c v).1.2 = none then
    (Job.Reschedule c (CheckSchedule.created c v).2 v.2).1.1
  else v.2

/-! ## A small concrete world

The world is a counter of the calls made so far; the clock shows ten units per
call.  Schedule texts starting with `d` parse, all others do not. -/

/-- A concrete collaborator: the query returns `rows`, `CreateTask` fails for the
job `bad` and otherwise returns the UUID of the job prefixed by `t-`. -/
def demo (rows : Except Err (List Row)) : Collab Nat where
  Query := fun w => (rows, w + 1)
  CreateTask := fun w _ _ _ job =>
    ((("t-" ++ job), if job = "bad" then some "insert failed" else none), w + 1)
  StartTask := fun w _ _ => w + 1
  CompleteTask := fun w _ _ => (none, w + 1)
  UpdateTaskLog := fun w _ _ => (none, w + 1)
  CreateTaskArchive := fun w _ _ _ => (none, w + 1)
  now := fun w => (10 * (w : Int), w + 1)
  uuidParse := fun s => s
  timespecParse := fun s =>
    if s.front = 'd' then (⟨s.length⟩, none) else (⟨0⟩, some "malformed schedule")
  next := fun _ t => Except.ok (t + 100)

/-- A catalog row that scanned. -/
def demoRow (id : String) (tspec : String) : Row :=
  { id := id, paused := false, targetPlugin := "pg", targetEndpoint := "db=app",
    storePlugin := "s3", storeEndpoint := "bucket=nightly", tspec := tspec, expiry := 30,
    scanErr := none }

/-- Three rows that load and one, `c`, whose schedule text does not parse. -/
def demoRows : List Row :=
  [demoRow "a" "daily 4am", demoRow "b" "daily 5am", demoRow "c" "every so often",
    demoRow "d" "daily 6am"]

/-- A row for which `Scan` failed, leaving the schedule text empty. -/
def demoUnscanned : Row :=
  { demoRow "e" "" with scanErr := some "sql: Scan error on column index 1" }

/-- A job of the catalog, due at instant 0. -/
def demoJob (id : String) : Job :=
  { UUID := id, Target := ⟨"pg", "db=app"⟩, Store := ⟨"s3", "bucket=nightly"⟩,
    Spec := ⟨9⟩, Paused := false, NextRun := 0 }

/-- A queued task. -/
def demoTask (id : String) : Task :=
  { UUID := id, Op := Operation.BACKUP, Store := ⟨"s3", "bucket=nightly"⟩,
    Target := ⟨"pg", "db=app"⟩ }

/-- A supervisor with empty queues and an empty trace. -/
def idleSupervisor : Supervisor Nat :=
  { runq := [], jobq := [], world := 0, trace := [] }

/-! ## General facts about the model -/

theorem sent_append (a b : List Effect) : sent (a ++ b) = sent a ++ sent b := by
  induction a with
  | nil => rfl
  | cons e a ih => cases e <;> simp [sent, ih]

theorem enqueued_append (a b : List Effect) :
    enqueued (a ++ b) = enqueued a ++ enqueued b := by
  induction a with
  | nil => rfl
  | cons e a ih => cases e <;> simp [enqueued, ih]

theorem databaseCalls_append (a b : List Effect) :
    databaseCalls (a ++ b) = databaseCalls a ++ databaseCalls b := by
  simp [databaseCalls]

theorem GetAllJobs.row_fst (c : Collab ω) (acc : List Job × JobFailedError) (r : Row) :
    (GetAllJobs.row c acc r).1 = acc.1 ++ [Row.job c r] := rfl

theorem GetAllJobs.foldl_fst (c : Collab ω) (rows : List Row)
    (acc : List Job × JobFailedError) :
    (rows.foldl (GetAllJobs.row c) acc).1 = acc.1 ++ rows.map (Row.job c) := by
  induction rows generalizing acc with
  | nil => simp
  | cons r rows ih => simp [List.foldl_cons, ih, GetAllJobs.row_fst]

/-- The row loop returns one Job per row, whether or not the row failed. -/
theorem GetAllJobs.rows_fst (c : Collab ω) (rows : List Row) :
    (GetAllJobs.rows c rows).1 = rows.map (Row.job c) := by
  simp [GetAllJobs.rows, GetAllJobs.foldl_fst]

theorem GetAllJobs.row_snd (c : Collab ω) (acc : List Job × JobFailedError) (r : Row) :
    (GetAllJobs.row c acc r).2.FailedJobs = acc.2.FailedJobs ++ Row.failures c r := by
  cases hs : r.scanErr <;> cases hp : (c.timespecParse r.tspec).2 <;>
    simp [GetAllJobs.row, Row.failures, hs, hp]

theorem GetAllJobs.foldl_snd (c : Collab ω) (rows : List Row)
    (acc : List Job × JobFailedError) :
    (rows.foldl (GetAllJobs.row c) acc).2.FailedJobs =
      acc.2.FailedJobs ++ (rows.map (Row.failures c)).flatten := by
  induction rows generalizing acc with
  | nil => simp
  | cons r rows ih => simp [List.foldl_cons, ih, GetAllJobs.row_snd]

/-- The row loop records the failures of each row, row after row. -/
theorem GetAllJobs.rows_snd (c : Collab ω) (rows : List Row) :
    (GetAllJobs.rows c rows).2.FailedJobs = (rows.map (Row.failures c)).flatten := by
  simp [GetAllJobs.rows, GetAllJobs.foldl_snd]

theorem Row.failures_eq_nil_iff (c : Collab ω) (r : Row) :
    Row.failures c r = [] ↔ Row.failed c r = false := by
  cases hs : r.scanErr <;> cases hp : (c.timespecParse r.tspec).2 <;>
    simp [Row.failures, Row.failed, hs, hp]

/-- The load reports no failure exactly when no row failed. -/
theorem GetAllJobs.rows_snd_nil_iff (c : Collab ω) (rows : List Row) :
    (GetAllJobs.rows c rows).2.FailedJobs = [] ↔ ∀ r ∈ rows, Row.failed c r = false := by
  rw [GetAllJobs.rows_snd]
  simp [List.flatten_eq_nil_iff, Row.failures_eq_nil_iff]

theorem GetAllJobs_frame (c : Collab ω) (s : Supervisor ω) :
    (GetAllJobs c s).2.runq = s.runq ∧ (GetAllJobs c s).2.jobq = s.jobq ∧
      (GetAllJobs c s).2.trace = s.trace ++ [Effect.Query] ∧
      (GetAllJobs c s).2.world = (c.Query s.world).2 := by
  rcases hq : (c.Query s.world).1 with e | rows
  · simp [GetAllJobs, hq]
  · by_cases h : (GetAllJobs.rows c rows).2.FailedJobs = [] <;> simp [GetAllJobs, hq, h]

theorem GetAllJobs_of_rows (c : Collab ω) (s : Supervisor ω) (rows : List Row)
    (hq : (c.Query s.world).1 = Except.ok rows) :
    (GetAllJobs c s).1 =
      (rows.map (Row.job c),
        if (rows.map (Row.failures c)).flatten = [] then none
        else some (Failure.jobFailed ⟨(rows.map (Row.failures c)).flatten⟩)) := by
  have h3 : (GetAllJobs.rows c rows).2 = ⟨(rows.map (Row.failures c)).flatten⟩ := by
    have := GetAllJobs.rows_snd c rows
    cases hr : (GetAllJobs.rows c rows).2
    rw [hr] at this
    simpa using this
  by_cases h : (rows.map (Row.failures c)).flatten = []
  · simp only [GetAllJobs, hq, h3, h, GetAllJobs.rows_fst]
    simp
  · simp only [GetAllJobs, hq, h3, GetAllJobs.rows_fst, List.length_eq_zero, h]
    simp

theorem Run.effects_of_trace (c : Collab ω) (s : Supervisor ω) (e : Event) (d : List Effect)
    (h : (Run.step c s e).trace = s.trace ++ d) : Run.effects c s e = d := by
  simp [Run.effects, h]

theorem Job.Reschedule_definition (c : Collab ω) (w : ω) (j : Job) :
    (Job.Reschedule c w j).1.1.definition = j.definition := by
  rcases h : c.next j.Spec (c.now w).1 with e | n <;>
    simp [Job.Reschedule, h, Job.definition]

theorem Resync.loop_jobs (c : Collab ω) (l : List Job) (s : Supervisor ω) :
    (Resync.loop c s l).1.map Job.definition = l.map Job.definition := by
  induction l generalizing s with
  | nil => rfl
  | cons j l ih => simp [Resync.loop, ih, Job.Reschedule_definition]

theorem Resync.loop_frame (c : Collab ω) (l : List Job) (s : Supervisor ω) :
    (Resync.loop c s l).2.runq = s.runq ∧ sent (Resync.loop c s l).2.trace = sent s.trace ∧
      enqueued (Resync.loop c s l).2.trace = enqueued s.trace := by
  induction l generalizing s with
  | nil => simp [Resync.loop]
  | cons j l ih =>
    simp only [Resync.loop]
    obtain ⟨h1, h2, h3⟩ := ih
      { s with world := (Job.Reschedule c s.world j).2
               trace := s.trace ++ [Effect.Reschedule j.UUID,
                 match (Job.Reschedule c s.world j).1.2 with
                 | some _ =>
                   Effect.Printf "error encountered while determining next run of %s (%s): %s\n"
                 | none => Effect.Printf "initial run of %s (%s) is at %s\n"] }
    refine ⟨h1, ?_, ?_⟩
    · rw [h2]; cases (Job.Reschedule c s.world j).1.2 <;> simp [sent_append, sent]
    · rw [h3]; cases (Job.Reschedule c s.world j).1.2 <;> simp [enqueued_append, enqueued]

theorem Resync.loop_rescheduled (c : Collab ω) (l : List Job) (s : Supervisor ω) :
    (Resync.loop c s l).1 = Resync.rescheduled c s.world l ∧
      (Resync.loop c s l).2.trace.filter Effect.isReschedule
        = s.trace.filter Effect.isReschedule ++ l.map (fun j => Effect.Reschedule j.UUID) := by
  induction l generalizing s with
  | nil => simp [Resync.loop, Resync.rescheduled]
  | cons j l ih =>
    simp only [Resync.loop, Resync.rescheduled]
    obtain ⟨h1, h2⟩ := ih
      { s with world := (Job.Reschedule c s.world j).2
               trace := s.trace ++ [Effect.Reschedule j.UUID,
                 match (Job.Reschedule c s.world j).1.2 with
                 | some _ =>
                   Effect.Printf "error encountered while determining next run of %s (%s): %s\n"
                 | none => Effect.Printf "initial run of %s (%s) is at %s\n"] }
    refine ⟨by rw [h1], ?_⟩
    rw [h2]
    cases (Job.Reschedule c s.world j).1.2 <;> simp [Effect.isReschedule]

/-! ## The catalog load -/

/-- C1, at the scenario of the spec: of four rows, three load and one (`c`) has a
schedule text that does not parse; `GetAllJobs` returns four Jobs, the Job of the
failed row among them, not three. -/
theorem GetAllJobs_returns_failed_row :
    (GetAllJobs (demo (Except.ok demoRows)) idleSupervisor).1.1.map (fun j => j.UUID)
        = ["a", "b", "c", "d"] ∧
      (demoRows.filter (fun r => !Row.failed (demo (Except.ok demoRows)) r)).map (fun r => r.id)
        = ["a", "b", "d"] ∧
      (GetAllJobs (demo (Except.ok demoRows)) idleSupervisor).1.2
        = some (Failure.jobFailed ⟨[⟨"c", "every so often", "malformed schedule"⟩]⟩) := by
  decide

/-- C2, at a row for which both `Scan` and the schedule parse fail: the one failed
row has two entries in `FailedJobs`, not one. -/
theorem GetAllJobs_lists_failed_row_twice :
    (GetAllJobs (demo (Except.ok [demoUnscanned])) idleSupervisor).1.2
      = some (Failure.jobFailed ⟨[⟨"e", "", "sql: Scan error on column index 1"⟩,
          ⟨"e", "", "malformed schedule"⟩]⟩) ∧
    JobFailedError.Error ⟨[⟨"e", "", "sql: Scan error on column index 1"⟩,
        ⟨"e", "", "malformed schedule"⟩]⟩ = "the following job(s) failed: e, e" ∧
    [demoUnscanned].length = 1 := by
  decide

/-! ## Resync -/

/-- C7, as amended: when the jobs query succeeds and no row fails to scan or parse,
`Resync` returns no error and the catalog becomes the Jobs of the fresh load, row by
row, each after its initial `Reschedule` (invoked once per loaded job, in load order,
and touching `NextRun` only), whatever the previous catalog held; when some row
fails, `Resync` returns the aggregate error and the catalog stays what it was. -/
theorem Resync_replaces_catalog (c : Collab ω) (s : Supervisor ω) (rows : List Row)
    (hq : (c.Query s.world).1 = Except.ok rows) :
    ((∀ r ∈ rows, Row.failed c r = false) →
      (Resync c s).1 = none ∧
        (Resync c s).2.jobq.map Job.definition = rows.map (Row.job c) ∧
        (Resync c s).2.jobq
          = Resync.rescheduled c (c.Query s.world).2 (rows.map (Row.job c)) ∧
        (Resync c s).2.trace.filter Effect.isReschedule
          = s.trace.filter Effect.isReschedule ++
            rows.map (fun r => Effect.Reschedule (c.uuidParse r.id))) ∧
    ((∃ r ∈ rows, Row.failed c r = true) →
      (Resync c s).1 = some (Failure.jobFailed ⟨(rows.map (Row.failures c)).flatten⟩) ∧
        (Resync c s).2.jobq = s.jobq) := by
  have hg := GetAllJobs_of_rows c s rows hq
  have hfr := GetAllJobs_frame c s
  constructor
  · intro hok
    have hnil : (rows.map (Row.failures c)).flatten = [] := by
      rw [← GetAllJobs.rows_snd]; exact (GetAllJobs.rows_snd_nil_iff c rows).2 hok
    rw [hnil] at hg
    have h1 : (GetAllJobs c s).1.2 = none := by rw [hg]; rfl
    have h2 : (GetAllJobs c s).1.1 = rows.map (Row.job c) := by rw [hg]
    obtain ⟨l1, l2⟩ := Resync.loop_rescheduled c (rows.map (Row.job c)) (GetAllJobs c s).2
    refine ⟨?_, ?_, ?_, ?_⟩
    · simp only [Resync, h1]
    · simp only [Resync, h1, h2, Resync.loop_jobs]
      simp [Job.definition, Row.job]
    · simp only [Resync, h1, h2, l1, hfr.2.2.2]
    · simp only [Resync, h1, h2, l2, hfr.2.2.1]
      simp [Effect.isReschedule, Row.job]
  · intro hbad
    have hne : (rows.map (Row.failures c)).flatten ≠ [] := by
      rw [← GetAllJobs.rows_snd]
      intro h
      obtain ⟨r, hr, hf⟩ := hbad
      rw [(GetAllJobs.rows_snd_nil_iff c rows).1 h r hr] at hf
      cases hf
    have h1 : (GetAllJobs c s).1.2
        = some (Failure.jobFailed ⟨(rows.map (Row.failures c)).flatten⟩) := by
      rw [hg]; simp [hne]
    simp only [Resync, h1, hfr.2.1, and_self]

/-- Two rows that load replace a catalog holding an unrelated job: the catalog
becomes the two loaded jobs, due at 110 and 120, the next occurrences after the
instants 10 and 20 at which their `Reschedule` read the clock. -/
theorem Resync_replaces_catalog_witness :
    (Resync (demo (Except.ok [demoRow "a" "daily 4am", demoRow "b" "daily 5am"]))
        { idleSupervisor with jobq := [demoJob "old"] }).2.jobq
      = Resync.rescheduled (demo (Except.ok [demoRow "a" "daily 4am", demoRow "b" "daily 5am"]))
          ((demo (Except.ok [demoRow "a" "daily 4am", demoRow "b" "daily 5am"])).Query
            ({ idleSupervisor with jobq := [demoJob "old"] } : Supervisor Nat).world).2
          ([demoRow "a" "daily 4am", demoRow "b" "daily 5am"].map
            (Row.job (demo (Except.ok [demoRow "a" "daily 4am", demoRow "b" "daily 5am"])))) ∧
    (Resync.rescheduled (demo (Except.ok [demoRow "a" "daily 4am", demoRow "b" "daily 5am"])) 1
        ([demoRow "a" "daily 4am", demoRow "b" "daily 5am"].map
          (Row.job (demo (Except.ok [demoRow "a" "daily 4am", demoRow "b" "daily 5am"]))))).map
        (fun j => (j.UUID, j.NextRun))
      = [("a", 110), ("b", 120)] :=
  ⟨((Resync_replaces_catalog (demo (Except.ok [demoRow "a" "daily 4am", demoRow "b" "daily 5am"]))
      { idleSupervisor with jobq := [demoJob "old"] }
      [demoRow "a" "daily 4am", demoRow "b" "daily 5am"] rfl).1 (by decide)).2.2.1,
    by decide⟩

/-- C7 as stated fails: the query succeeds and the load returns Jobs, yet because one
row did not parse the catalog still holds the job `old` and none of the loaded
ones. -/
theorem Resync_keeps_catalog_on_row_failure :
    (demo (Except.ok demoRows)).Query idleSupervisor.world = (Except.ok demoRows, 1) ∧
      (GetAllJobs (demo (Except.ok demoRows))
          { idleSupervisor with jobq := [demoJob "old"] }).1.1.map (fun j => j.UUID)
        = ["a", "b", "c", "d"] ∧
      (Resync (demo (Except.ok demoRows))
          { idleSupervisor with jobq := [demoJob "old"] }).2.jobq = [demoJob "old"] ∧
      (Resync (demo (Except.ok demoRows))
          { idleSupervisor with jobq := [demoJob "old"] }).2.jobq.map Job.definition
        ≠ (GetAllJobs (demo (Except.ok demoRows))
          { idleSupervisor with jobq := [demoJob "old"] }).1.1.map Job.definition :=
  ⟨rfl, by decide, by decide, by decide⟩

/-- C8: if `Resync` returns an error, the catalog and the run queue are what they
were, the only effect was the jobs query (so `Reschedule` ran on no job), and the
resync branch of `Run` adds one log line and hands back a supervisor with the same
catalog and run queue. -/
theorem Resync_failure_keeps_state (c : Collab ω) (s : Supervisor ω)
    (h : (Resync c s).1 ≠ none) :
    (Resync c s).2.jobq = s.jobq ∧ (Resync c s).2.runq = s.runq ∧
      (Resync c s).2.trace = s.trace ++ [Effect.Query] ∧
      ((Resync c s).2.trace.drop s.trace.length).filter Effect.isReschedule = [] ∧
      (Run.step c s Event.resync).jobq = s.jobq ∧
      (Run.step c s Event.resync).runq = s.runq ∧
      Run.effects c s Event.resync = [Effect.Query, Effect.Printf "resync error: %s\n"] := by
  have hfr := GetAllJobs_frame c s
  cases hg : (GetAllJobs c s).1.2 with
  | none => simp [Resync, hg] at h
  | some err =>
    have hr : Resync c s = (some err, (GetAllJobs c s).2) := by simp [Resync, hg]
    have hs : Run.step c s Event.resync
        = (GetAllJobs c s).2.emit [Effect.Printf "resync error: %s\n"] := by
      simp [Run.step, hr]
    refine ⟨by rw [hr]; exact hfr.2.1, by rw [hr]; exact hfr.1, by rw [hr]; exact hfr.2.2.1,
      ?_, by rw [hs]; exact hfr.2.1, by rw [hs]; exact hfr.1, ?_⟩
    · rw [hr]; simp [hfr.2.2.1, Effect.isReschedule]
    · apply Run.effects_of_trace
      rw [hs]; simp [Supervisor.emit, hfr.2.2.1]

/-- The database is unreachable: the catalog survives the failed resync. -/
theorem Resync_failure_keeps_state_witness :
    (Resync (demo (Except.error "connection refused"))
        { idleSupervisor with jobq := [demoJob "old"], runq := [demoTask "t1"] }).2.jobq
      = [demoJob "old"] :=
  (Resync_failure_keeps_state (demo (Except.error "connection refused"))
    { idleSupervisor with jobq := [demoJob "old"], runq := [demoTask "t1"] } (by decide)).1

/-! ## The default branch of Run -/

theorem Run.handoff_send (c : Collab ω) (s : Supervisor ω) (head : Task) (rest : List Task)
    (h : s.runq = head :: rest) :
    Run.step c s (Event.idle true) =
      { s with world := c.StartTask (c.now s.world).2 head.UUID (c.now s.world).1
               runq := rest
               trace := s.trace ++ [Effect.Send head,
                 Effect.StartTask head.UUID (c.now s.world).1,
                 Effect.Printf "sent a task to a worker\n"] } := by
  simp [Run.step, Run.handoff, h]

/-- C10: one pass through the default branch of `Run`.  The catalog is never touched.
With an empty run queue nothing changes.  With a non-empty queue and no worker ready
nothing changes either (no send, no `StartTask`).  With a non-empty queue and a worker
ready, the effects of the pass are the send of the head Task, `StartTask` with the
UUID of that Task and a log line, and the queue becomes its former tail. -/
theorem Run_default_branch (c : Collab ω) (s : Supervisor ω) (ready : Bool) :
    (Run.step c s (Event.idle ready)).jobq = s.jobq ∧
    (s.runq = [] → Run.step c s (Event.idle ready) = s) ∧
    (s.runq ≠ [] → ready = false → Run.step c s (Event.idle ready) = s) ∧
    (∀ head rest, s.runq = head :: rest → ready = true →
      (Run.step c s (Event.idle ready)).runq = rest ∧
      (Run.step c s (Event.idle ready)).runq.length + 1 = s.runq.length ∧
      Run.effects c s (Event.idle ready) =
        [Effect.Send head, Effect.StartTask head.UUID (c.now s.world).1,
          Effect.Printf "sent a task to a worker\n"] ∧
      (Run.step c s (Event.idle ready)).world =
        c.StartTask (c.now s.world).2 head.UUID (c.now s.world).1) := by
  refine ⟨?_, ?_, ?_, ?_⟩
  · cases hq : s.runq with
    | nil => simp [Run.step, Run.handoff, hq]
    | cons head rest => cases ready <;> simp [Run.step, Run.handoff, hq]
  · intro hq
    simp [Run.step, Run.handoff, hq]
  · intro _ hr
    subst hr
    cases hq : s.runq <;> simp [Run.step, Run.handoff, hq]
  · intro head rest hq hr
    subst hr
    refine ⟨?_, ?_, ?_, ?_⟩
    · rw [Run.handoff_send c s head rest hq]
    · rw [Run.handoff_send c s head rest hq, hq]; rfl
    · apply Run.effects_of_trace
      rw [Run.handoff_send c s head rest hq]
    · rw [Run.handoff_send c s head rest hq]

/-- Two queued tasks and a worker ready: the head is handed over and the other
stays. -/
theorem Run_default_branch_witness :
    (Run.step (demo (Except.ok [])) { idleSupervisor with runq := [demoTask "t1", demoTask "t2"] }
        (Event.idle true)).runq = [demoTask "t2"] :=
  ((Run_default_branch (demo (Except.ok []))
      { idleSupervisor with runq := [demoTask "t1", demoTask "t2"] } true).2.2.2
    (demoTask "t1") [demoTask "t2"] rfl rfl).1

/-- C5, as amended: in a handoff of the default branch the head Task is sent on the
worker channel first and `StartTask` for its UUID is called after the send. -/
theorem Run_handoff_sends_then_marks (c : Collab ω) (s : Supervisor ω) (head : Task)
    (rest : List Task) (h : s.runq = head :: rest) :
    Run.effects c s (Event.idle true) =
        [Effect.Send head, Effect.StartTask head.UUID (c.now s.world).1,
          Effect.Printf "sent a task to a worker\n"] ∧
      occursBefore (Effect.Send head) (Effect.StartTask head.UUID (c.now s.world).1)
        (Run.effects c s (Event.idle true)) := by
  have he : Run.effects c s (Event.idle true) =
      [Effect.Send head, Effect.StartTask head.UUID (c.now s.world).1,
        Effect.Printf "sent a task to a worker\n"] := by
    apply Run.effects_of_trace
    rw [Run.handoff_send c s head rest h]
  refine ⟨he, ?_⟩
  rw [he]
  refine ⟨by simp, by simp, ?_⟩
  simp [List.indexOf_cons]

/-- Two queued tasks and a worker ready: the send of the head comes before its
`StartTask`. -/
theorem Run_handoff_sends_then_marks_witness :
    occursBefore (Effect.Send (demoTask "t1")) (Effect.StartTask "t1" 0)
      (Run.effects (demo (Except.ok []))
        { idleSupervisor with runq := [demoTask "t1", demoTask "t2"] } (Event.idle true)) :=
  (Run_handoff_sends_then_marks (demo (Except.ok []))
    { idleSupervisor with runq := [demoTask "t1", demoTask "t2"] }
    (demoTask "t1") [demoTask "t2"] rfl).2

/-- C5 as stated fails: in this handoff `StartTask` for the head Task does not come
before the send of that Task; the step sends first. -/
theorem Run_handoff_not_marked_before_send :
    Run.effects (demo (Except.ok []))
        { idleSupervisor with runq := [demoTask "t1", demoTask "t2"] } (Event.idle true)
      = [Effect.Send (demoTask "t1"), Effect.StartTask "t1" 0,
          Effect.Printf "sent a task to a worker\n"] ∧
    ¬ occursBefore (Effect.StartTask "t1" 0) (Effect.Send (demoTask "t1"))
      (Run.effects (demo (Except.ok []))
        { idleSupervisor with runq := [demoTask "t1", demoTask "t2"] } (Event.idle true)) := by
  decide

/-! ## Worker updates -/

/-- C6: applying a worker update leaves the run queue and the catalog alone and makes
the one database call its Op selects: `CompleteTask` with the timestamp of the update
for STOPPED, `UpdateTaskLog` for OUTPUT, `CreateTaskArchive` with the current time for
RESTORE_KEY, and no database call at all for any other Op; the outcome of the call
does not matter. -/
theorem Run_update_one_call (c : Collab ω) (s : Supervisor ω) (u : WorkerUpdate) :
    (Run.step c s (Event.update u)).runq = s.runq ∧
    (Run.step c s (Event.update u)).jobq = s.jobq ∧
    databaseCalls (Run.effects c s (Event.update u)) =
      (match u.Op with
        | UpdateOp.STOPPED => [Effect.CompleteTask u.Task u.StoppedAt]
        | UpdateOp.OUTPUT => [Effect.UpdateTaskLog u.Task u.Output]
        | UpdateOp.RESTORE_KEY => [Effect.CreateTaskArchive u.Task u.Output (c.now s.world).1]
        | UpdateOp.unknown _ => []) ∧
    (Run.step c s (Event.update u)).world =
      (match u.Op with
        | UpdateOp.STOPPED => (c.CompleteTask s.world u.Task u.StoppedAt).2
        | UpdateOp.OUTPUT => (c.UpdateTaskLog s.world u.Task u.Output).2
        | UpdateOp.RESTORE_KEY =>
          (c.CreateTaskArchive (c.now s.world).2 u.Task u.Output (c.now s.world).1).2
        | UpdateOp.unknown _ => s.world) := by
  rcases u with ⟨task, op, stoppedAt, output⟩
  cases op with
  | STOPPED =>
    cases hr : (c.CompleteTask s.world task stoppedAt).1 <;>
      simp [Run.step, Run.update, Run.effects, Supervisor.emit, hr, databaseCalls,
        Effect.isDatabaseCall]
  | OUTPUT =>
    cases hr : (c.UpdateTaskLog s.world task output).1 <;>
      simp [Run.step, Run.update, Run.effects, Supervisor.emit, hr, databaseCalls,
        Effect.isDatabaseCall]
  | RESTORE_KEY =>
    cases hr : (c.CreateTaskArchive (c.now s.world).2 task output (c.now s.world).1).1 <;>
      simp [Run.step, Run.update, Run.effects, Supervisor.emit, hr, databaseCalls,
        Effect.isDatabaseCall]
  | unknown n =>
    simp [Run.step, Run.update, Run.effects, Supervisor.emit, databaseCalls,
      Effect.isDatabaseCall]

/-! ## The schedule check -/

theorem CheckSchedule.body_spec (c : Collab ω) (s : Supervisor ω) (job : Job) :
    (CheckSchedule.body c s job).1 = CheckSchedule.leaves c (s.world, job) ∧
    (CheckSchedule.body c s job).2.runq
      = s.runq ++ (CheckSchedule.dispatched c (s.world, job)).toList ∧
    (CheckSchedule.body c s job).2.jobq = s.jobq ∧
    enqueued (CheckSchedule.body c s job).2.trace
      = enqueued s.trace ++ (CheckSchedule.dispatched c (s.world, job)).toList ∧
    sent (CheckSchedule.body c s job).2.trace = sent s.trace ∧
    (CheckSchedule.body c s job).2.trace.filter Effect.isReschedule
      = s.trace.filter Effect.isReschedule ++
        ((CheckSchedule.dispatched c (s.world, job)).toList.map
          (fun _ => Effect.Reschedule job.UUID)) ∧
    databaseCalls (CheckSchedule.body c s job).2.trace
      = databaseCalls s.trace ++
        (if CheckSchedule.due c (s.world, job) = true then
          [Effect.CreateTask "system" "backup" "ARGS" job.UUID] else []) := by
  cases hr : (Job.Runnable c s.world job).1 with
  | false =>
    simp [CheckSchedule.body, CheckSchedule.leaves, CheckSchedule.dispatched,
      CheckSchedule.due, hr]
  | true =>
    cases hc : (c.CreateTask (Job.Runnable c s.world job).2 "system" "backup" "ARGS"
        job.UUID).1.2 with
    | some err =>
      simp [CheckSchedule.body, CheckSchedule.leaves, CheckSchedule.dispatched,
        CheckSchedule.due, CheckSchedule.created, hr, hc, Supervisor.emit, sent_append,
        enqueued_append, sent, enqueued, databaseCalls, Effect.isReschedule,
        Effect.isDatabaseCall]
    | none =>
      cases hs : (Job.Reschedule c (c.CreateTask (Job.Runnable c s.world job).2 "system"
          "backup" "ARGS" job.UUID).2 job).1.2 <;>
        simp [CheckSchedule.body, CheckSchedule.leaves, CheckSchedule.dispatched,
          CheckSchedule.due, CheckSchedule.created, hr, hc, hs, Supervisor.emit, sent_append,
          enqueued_append, sent, enqueued, databaseCalls, Effect.isReschedule,
          Effect.isDatabaseCall]

theorem CheckSchedule.loop_spec (c : Collab ω) (jobs : List Job) (s : Supervisor ω) :
    (CheckSchedule.loop c s jobs).1 = (CheckSchedule.visits c s jobs).map (CheckSchedule.leaves c) ∧
    (CheckSchedule.loop c s jobs).2.runq
      = s.runq ++ (CheckSchedule.visits c s jobs).filterMap (CheckSchedule.dispatched c) ∧
    (CheckSchedule.loop c s jobs).2.jobq = s.jobq ∧
    enqueued (CheckSchedule.loop c s jobs).2.trace
      = enqueued s.trace ++ (CheckSchedule.visits c s jobs).filterMap (CheckSchedule.dispatched c) ∧
    sent (CheckSchedule.loop c s jobs).2.trace = sent s.trace ∧
    (CheckSchedule.loop c s jobs).2.trace.filter Effect.isReschedule
      = s.trace.filter Effect.isReschedule ++
        ((CheckSchedule.visits c s jobs).filter
          (fun v => (CheckSchedule.dispatched c v).isSome)).map
          (fun v => Effect.Reschedule v.2.UUID) ∧
    databaseCalls (CheckSchedule.loop c s jobs).2.trace
      = databaseCalls s.trace ++
        ((CheckSchedule.visits c s jobs).filter (CheckSchedule.due c)).map
          (fun v => Effect.CreateTask "system" "backup" "ARGS" v.2.UUID) := by
  induction jobs generalizing s with
  | nil => simp [CheckSchedule.loop, CheckSchedule.visits]
  | cons job rest ih =>
    obtain ⟨b1, b2, b3, b4, b5, b6, b7⟩ := CheckSchedule.body_spec c s job
    obtain ⟨i1, i2, i3, i4, i5, i6, i7⟩ := ih (CheckSchedule.body c s job).2
    simp only [CheckSchedule.loop, CheckSchedule.visits]
    refine ⟨?_, ?_, ?_, ?_, ?_, ?_, ?_⟩
    · simp [i1, b1]
    · rw [i2, b2]
      cases hd : CheckSchedule.dispatched c (s.world, job) <;>
        simp [List.filterMap_cons, hd]
    · rw [i3, b3]
    · rw [i4, b4]
      cases hd : CheckSchedule.dispatched c (s.world, job) <;>
        simp [List.filterMap_cons, hd]
    · rw [i5, b5]
    · rw [i6, b6]
      cases hd : CheckSchedule.dispatched c (s.world, job) <;>
        simp [List.filter_cons, hd]
    · rw [i7, b7]
      cases hd : CheckSchedule.due c (s.world, job) <;>
        simp [List.filter_cons, hd]

theorem CheckSchedule.visits_jobs (c : Collab ω) (jobs : List Job) (s : Supervisor ω) :
    (CheckSchedule.visits c s jobs).map Prod.snd = jobs := by
  induction jobs generalizing s with
  | nil => rfl
  | cons job rest ih => simp [CheckSchedule.visits, ih]

/-- C3: a pass of `CheckSchedule` visits every job of the catalog once, in catalog
order, whatever happened to the jobs before it.  Every Runnable job gets its
`CreateTask` call.  The run queue afterwards is the previous run queue followed by
the Tasks of the jobs that were Runnable and whose `CreateTask` succeeded, in catalog
order, each under the UUID `CreateTask` returned.  `Reschedule` is invoked on exactly
those jobs; every other job, a job whose `CreateTask` failed included, is left as it
was. -/
theorem CheckSchedule_dispatches (c : Collab ω) (s : Supervisor ω) :
    (CheckSchedule.visits c s s.jobq).map Prod.snd = s.jobq ∧
    (CheckSchedule c s).runq
      = s.runq ++ (CheckSchedule.visits c s s.jobq).filterMap (CheckSchedule.dispatched c) ∧
    (CheckSchedule c s).jobq
      = (CheckSchedule.visits c s s.jobq).map (CheckSchedule.leaves c) ∧
    (CheckSchedule c s).trace.filter Effect.isReschedule
      = s.trace.filter Effect.isReschedule ++
        ((CheckSchedule.visits c s s.jobq).filter
          (fun v => (CheckSchedule.dispatched c v).isSome)).map
          (fun v => Effect.Reschedule v.2.UUID) ∧
    databaseCalls (CheckSchedule c s).trace
      = databaseCalls s.trace ++
        ((CheckSchedule.visits c s s.jobq).filter (CheckSchedule.due c)).map
          (fun v => Effect.CreateTask "system" "backup" "ARGS" v.2.UUID) := by
  obtain ⟨h1, h2, _, _, _, h6, h7⟩ := CheckSchedule.loop_spec c s.jobq s
  exact ⟨CheckSchedule.visits_jobs c s.jobq s, h2, h1, h6, h7⟩

/-- A pass over a catalog of four jobs, all due: `CreateTask` fails for the second
and the third is paused; the first and the fourth are queued, in that order, and
only they are rescheduled. -/
theorem CheckSchedule_example :
    (CheckSchedule (demo (Except.ok []))
        { idleSupervisor with
          runq := [demoTask "t0"]
          jobq := [demoJob "a", demoJob "bad", { demoJob "p" with Paused := true },
            demoJob "b"] }).runq
      = [demoTask "t0", demoTask "t-a", demoTask "t-b"] ∧
    (CheckSchedule (demo (Except.ok []))
        { idleSupervisor with
          runq := [demoTask "t0"]
          jobq := [demoJob "a", demoJob "bad", { demoJob "p" with Paused := true },
            demoJob "b"] }).jobq.map (fun j => (j.UUID, j.NextRun))
      = [("a", 120), ("bad", 0), ("p", 0), ("b", 180)] := by
  decide

/-! ## Dispatch order -/

theorem Resync_frame (c : Collab ω) (s : Supervisor ω) :
    (Resync c s).2.runq = s.runq ∧ sent (Resync c s).2.trace = sent s.trace ∧
      enqueued (Resync c s).2.trace = enqueued s.trace := by
  obtain ⟨g1, _, g3, _⟩ := GetAllJobs_frame c s
  have gs : sent (GetAllJobs c s).2.trace = sent s.trace := by
    rw [g3]; simp [sent_append, sent]
  have ge : enqueued (GetAllJobs c s).2.trace = enqueued s.trace := by
    rw [g3]; simp [enqueued_append, enqueued]
  cases hg : (GetAllJobs c s).1.2 with
  | some err => simp [Resync, hg, g1, gs, ge]
  | none =>
    obtain ⟨l1, l2, l3⟩ := Resync.loop_frame c (GetAllJobs c s).1.1 (GetAllJobs c s).2
    simp [Resync, hg, l1, l2, l3, g1, gs, ge]

theorem Run.update_frame (c : Collab ω) (s : Supervisor ω) (u : WorkerUpdate) :
    (Run.update c s u).runq = s.runq ∧ sent (Run.update c s u).trace = sent s.trace ∧
      enqueued (Run.update c s u).trace = enqueued s.trace := by
  rcases u with ⟨task, op, stoppedAt, output⟩
  cases op with
  | STOPPED =>
    cases hr : (c.CompleteTask s.world task stoppedAt).1 <;>
      simp [Run.update, Supervisor.emit, hr, sent_append, enqueued_append, sent, enqueued]
  | OUTPUT =>
    cases hr : (c.UpdateTaskLog s.world task output).1 <;>
      simp [Run.update, Supervisor.emit, hr, sent_append, enqueued_append, sent, enqueued]
  | RESTORE_KEY =>
    cases hr : (c.CreateTaskArchive (c.now s.world).2 task output (c.now s.world).1).1 <;>
      simp [Run.update, Supervisor.emit, hr, sent_append, enqueued_append, sent, enqueued]
  | unknown n =>
    simp [Run.update, Supervisor.emit, sent_append, enqueued_append, sent, enqueued]

/-- One iteration of the loop either sends nothing or sends the head of the run
queue and pops it; what it appends to the run queue is what it records as
enqueued. -/
theorem Run.step_shape (c : Collab ω) (s : Supervisor ω) (e : Event) :
    ∃ out new, sent (Run.step c s e).trace = sent s.trace ++ out ∧
      enqueued (Run.step c s e).trace = enqueued s.trace ++ new ∧
      out ++ (Run.step c s e).runq = s.runq ++ new ∧
      (out = [] ∨ ∃ head rest, s.runq = head :: rest ∧ out = [head] ∧
        (Run.step c s e).runq = rest) := by
  cases e with
  | resync =>
    obtain ⟨r1, r2, r3⟩ := Resync_frame c s
    refine ⟨[], [], ?_, ?_, ?_, Or.inl rfl⟩ <;>
      cases hr : (Resync c s).1 <;>
        simp [Run.step, hr, Supervisor.emit, sent_append, enqueued_append, sent, enqueued,
          r1, r2, r3]
  | tick =>
    obtain ⟨_, h2, _, h4, h5, _, _⟩ := CheckSchedule.loop_spec c s.jobq s
    exact ⟨[], (CheckSchedule.visits c s s.jobq).filterMap (CheckSchedule.dispatched c),
      by simpa [Run.step, CheckSchedule] using h5, by simpa [Run.step, CheckSchedule] using h4,
      by simpa [Run.step, CheckSchedule] using h2, Or.inl rfl⟩
  | update u =>
    obtain ⟨u1, u2, u3⟩ := Run.update_frame c s u
    exact ⟨[], [], by simp [Run.step, u2], by simp [Run.step, u3], by simp [Run.step, u1],
      Or.inl rfl⟩
  | idle ready =>
    cases hq : s.runq with
    | nil =>
      exact ⟨[], [], by simp [Run.step, Run.handoff, hq], by simp [Run.step, Run.handoff, hq],
        by simp [Run.step, Run.handoff, hq], Or.inl rfl⟩
    | cons head rest =>
      cases ready with
      | false =>
        exact ⟨[], [], by simp [Run.step, Run.handoff, hq],
          by simp [Run.step, Run.handoff, hq], by simp [Run.step, Run.handoff, hq],
          Or.inl rfl⟩
      | true =>
        refine ⟨[head], [], ?_, ?_, ?_, Or.inr ⟨head, rest, rfl, rfl, ?_⟩⟩ <;>
          simp [Run.handoff_send c s head rest hq, sent_append, enqueued_append, sent,
            enqueued]

theorem Run.step_invariant (c : Collab ω) (s : Supervisor ω) (e : Event)
    (h : enqueued s.trace = sent s.trace ++ s.runq) :
    enqueued (Run.step c s e).trace
      = sent (Run.step c s e).trace ++ (Run.step c s e).runq := by
  obtain ⟨out, new, h1, h2, h3, _⟩ := Run.step_shape c s e
  rw [h1, h2, h, List.append_assoc, List.append_assoc, h3]

theorem Run.steps_invariant (c : Collab ω) (es : List Event) (s : Supervisor ω)
    (h : enqueued s.trace = sent s.trace ++ s.runq) :
    enqueued (Run.steps c s es).trace
      = sent (Run.steps c s es).trace ++ (Run.steps c s es).runq := by
  induction es generalizing s with
  | nil => exact h
  | cons e es ih => exact ih (Run.step c s e) (Run.step_invariant c s e h)

/-- C4: dispatch is FIFO.  Start the loop of `Run` in a state where the Tasks
enqueued so far are the Tasks sent so far followed by the run queue (as in a fresh
supervisor, where all three are empty).  After any sequence of iterations the same
holds, so the Tasks sent are a prefix, in order, of the Tasks enqueued; and in every
iteration the only Task that can be sent is the head of the run queue, which is then
popped. -/
theorem Run_dispatch_fifo (c : Collab ω) (s : Supervisor ω) (es : List Event)
    (h : enqueued s.trace = sent s.trace ++ s.runq) :
    enqueued (Run.steps c s es).trace
        = sent (Run.steps c s es).trace ++ (Run.steps c s es).runq ∧
      sent (Run.steps c s es).trace <+: enqueued (Run.steps c s es).trace ∧
      ∀ (before : List Event) (e : Event),
        sent (Run.step c (Run.steps c s before) e).trace = sent (Run.steps c s before).trace ∨
        ∃ head rest, (Run.steps c s before).runq = head :: rest ∧
          sent (Run.step c (Run.steps c s before) e).trace
            = sent (Run.steps c s before).trace ++ [head] ∧
          (Run.step c (Run.steps c s before) e).runq = rest := by
  have hinv := Run.steps_invariant c es s h
  refine ⟨hinv, ⟨(Run.steps c s es).runq, hinv.symm⟩, ?_⟩
  intro before e
  obtain ⟨out, new, h1, _, _, h4⟩ := Run.step_shape c (Run.steps c s before) e
  rcases h4 with rfl | ⟨head, rest, hq, rfl, hr⟩
  · left; simpa using h1
  · right; exact ⟨head, rest, hq, h1, hr⟩

/-- A fresh supervisor with two due jobs: after a
tick, a handoff, a busy pass, an update and another handoff both Tasks have been
sent in the order they were enqueued. -/
theorem Run_dispatch_fifo_witness :
    sent (Run.steps (demo (Except.ok []))
        { idleSupervisor with jobq := [demoJob "a", demoJob "b"] }
        [Event.tick, Event.idle true, Event.idle false,
          Event.update ⟨"t-a", UpdateOp.OUTPUT, 0, "chunk"⟩, Event.idle true]).trace
      <+: enqueued (Run.steps (demo (Except.ok []))
        { idleSupervisor with jobq := [demoJob "a", demoJob "b"] }
        [Event.tick, Event.idle true, Event.idle false,
          Event.update ⟨"t-a", UpdateOp.OUTPUT, 0, "chunk"⟩, Event.idle true]).trace :=
  (Run_dispatch_fifo (demo (Except.ok []))
    { idleSupervisor with jobq := [demoJob "a", demoJob "b"] }
    [Event.tick, Event.idle true, Event.idle false,
      Event.update ⟨"t-a", UpdateOp.OUTPUT, 0, "chunk"⟩, Event.idle true] rfl).2.1

end Shield
